import Mathlib

/-!
Shallow embedding of `src/infer_pipeline.py`: a command-line inference runner
that loads a CSV table and a serialized sklearn pipeline, derives a cleaned
view of the table, predicts on the raw table, optionally adds probability
columns, writes the result table, and prints a report.

Tabular cell values are modelled by `Val` (rationals stand in for the numeric
values a CSV can hold, strings for text).  A pandas `DataFrame` is a row count
plus an ordered list of named columns (`DF`).  A numpy array returned by
`predict_proba` is `NDArray`: either 1-D or 2-D with an explicit width (numpy
keeps `shape[1]` even when there are zero rows).  The pipeline object is a
record of its three dynamically-probed capabilities.  Console output is a list
of `Msg` values, one constructor per `print` statement of the script, each
tagged to the stream (stdout / stderr) the script sends it to.
-/

deriving instance DecidableEq for Except

namespace InferPipeline

/-- A scalar cell value: number (ℚ stands in for int/float) or text. -/
inductive Val
  | num (q : ℚ)
  | str (s : String)
deriving DecidableEq

/-- A Python exception escaping one of the fallible operations.  The script
distinguishes only `FileNotFoundError` from every other exception
(`infer_pipeline.py` lines 129-134), so two constructors suffice; the payload
is the exception's description text. -/
inductive Err
  | fileNotFound (m : String)
  | other (m : String)
deriving DecidableEq

/-- The description text of an exception (what `{e}` interpolates). -/
def Err.msg : Err → String
  | .fileNotFound m => m
  | .other m => m

/-- A pandas DataFrame: a row count and named columns in order.  The row count
is explicit because pandas tracks the index length independently of the
columns. -/
structure DF where
  nrows : Nat
  cols : List (String × List Val)
deriving DecidableEq

/-- `df.columns`, in order. -/
def DF.columns (d : DF) : List String := d.cols.map Prod.fst

/-- Number of columns (`df.shape[1]`). -/
def DF.ncols (d : DF) : Nat := d.cols.length

/-- Look a column up by name (first match, as pandas label lookup). -/
def DF.getCol (d : DF) (n : String) : Option (List Val) :=
  (d.cols.find? (fun c => c.1 == n)).map Prod.snd

/-- Column lookup with a default, for positions the script has already
guarded by a membership test (`test_data[args.id_col]`). -/
def DF.getColD (d : DF) (n : String) : List Val := (d.getCol n).getD []

/-- The `ValueError` pandas raises when an assigned array's length does not
match the frame's index length. -/
def lengthErr : Err := .other "Length of values does not match length of index"

/-- Core of column assignment: pandas `df[n] = v` replaces the column in place
when the label exists and appends it at the end otherwise. -/
def setColsAux (cols : List (String × List Val)) (n : String) (v : List Val) :
    List (String × List Val) :=
  if cols.any (fun c => c.1 == n) then
    cols.map (fun c => if c.1 == n then (n, v) else c)
  else cols ++ [(n, v)]

/-- `df[n] = v` (`results["Prediccion"] = predictions`, lines 91, 96-97, 100):
raises unless the value list matches the index length. -/
def DF.setCol (d : DF) (n : String) (v : List Val) : Except Err DF :=
  if v.length = d.nrows then .ok ⟨d.nrows, setColsAux d.cols n v⟩
  else .error lengthErr

/-- `df.insert(0, n, v)` (line 88): the script only calls it when `n` is not
already a column; raises on a length mismatch. -/
def DF.insertFront (d : DF) (n : String) (v : List Val) : Except Err DF :=
  if v.length = d.nrows then .ok ⟨d.nrows, (n, v) :: d.cols⟩
  else .error lengthErr

/-- A numpy array as returned by `predict_proba`: 1-dimensional, or
2-dimensional with an explicit column count `w` (= `shape[1]`). -/
inductive NDArray
  | d1 (vals : List Val)
  | d2 (w : Nat) (rows : List (List Val))
deriving DecidableEq

/-- `a.ndim`. -/
def NDArray.ndim : NDArray → Nat
  | .d1 _ => 1
  | .d2 _ _ => 2

/-- `a.shape[1]` of a 2-D array (the script reads it only when `ndim == 2`). -/
def NDArray.shape1 : NDArray → Nat
  | .d1 _ => 0
  | .d2 w _ => w

/-- Column slice `a[:, j]` of a 2-D array. -/
def NDArray.col (a : NDArray) (j : Nat) : List Val :=
  match a with
  | .d1 v => v
  | .d2 _ rows => rows.map (fun r => r.getD j (Val.num 0))

/-- `a.ravel()`: row-major flattening. -/
def NDArray.ravel : NDArray → List Val
  | .d1 v => v
  | .d2 _ rows => rows.flatten

/-- What the cleaning stage's `transform` hands back: a DataFrame, or an
array-like that line 34 coerces with `pd.DataFrame(cleaned, index=df_raw.index)`. -/
inductive CleanOut
  | frame (d : DF)
  | array (a : NDArray)

/-- The deserialized pipeline object, reduced to the three capabilities the
script probes: an optional `named_steps["cleaning"].transform`, `predict`,
and `predict_proba` (absence of the attribute and a raise inside it are both
an `Err`, as both are caught by the same `except`). -/
structure Pipeline where
  cleaning : Option (DF → Except Err CleanOut)
  predict : DF → Except Err (List Val)
  predict_proba : DF → Except Err NDArray

/-- One console line.  Each constructor corresponds to one `print` of the
script and carries the data interpolated into the message. -/
inductive Msg
  | header                                -- "=== INFERENCIA EN ARCHIVO DE PRUEBA ===" (line 62)
  | inputFile (p : String)                -- "Archivo de entrada: {csv}" (line 63)
  | shapeRaw (r c : Nat)                  -- "Forma del archivo de prueba (crudo): ..." (line 64)
  | shapeCleaned (r c : Nat)              -- "Forma del archivo de prueba (limpio): ..." (line 70)
  | avisoProba                            -- "[Aviso] El estimador no soporta predict_proba; ..." (line 82)
  | avisoLimpio (cause : String)          -- "[Aviso] No fue posible obtener el DataFrame limpio: {e}" (line 39)
  | saved (p : String)                    -- "Resultados (LIMPIO) guardados en '{out}'" (line 104)
  | numPreds (n : Nat)                    -- "Predicciones realizadas: {len}" (line 112)
  | dist                                  -- "Distribución de predicciones: ..." (line 113)
  | primeras (n : Nat)                    -- "Primeras {head} filas:" (line 123)
  | previewSel (cols : List String)       -- print(results[preview_cols].head(...)) (line 125)
  | previewAll                            -- print(results.head(...)) (line 127)
  | missingCsv (p : String)               -- "Archivo '{csv}' no encontrado. ..." (line 53)
  | missingPkl (p : String)               -- "Archivo de pipeline '{pkl}' no encontrado." (line 56)
  | archivoNoEncontrado (cause : String)  -- "Archivo no encontrado: {e}" (line 130)
  | errorProcesar (cause : String)        -- "Error al procesar inferencia: {e}" (line 133)
deriving DecidableEq

/-- Whether a message is one the script sends to `sys.stderr`
(`file=sys.stderr` at lines 39, 53, 56, 130, 133); every other message goes
to stdout. -/
def Msg.isError : Msg → Bool
  | .avisoLimpio _ => true
  | .missingCsv _ => true
  | .missingPkl _ => true
  | .archivoNoEncontrado _ => true
  | .errorProcesar _ => true
  | _ => false

/-- The world the script touches: path existence, CSV reading, pipeline
deserialization, CSV writing.  Each fallible operation yields the exception
it raises, if any. -/
structure FS where
  pathExists : String → Bool
  readCsv : String → Except Err DF
  loadPkl : String → Except Err Pipeline
  write : String → DF → Except Err Unit

/-- The parsed command-line arguments (lines 44-48). -/
structure Args where
  csv : String
  pkl : String
  out : String
  id_col : String
  head : Nat

/-- Accumulated observable state of a run: console lines per stream and the
output table, if written. -/
structure St where
  stdout : List Msg
  stderr : List Msg
  written : Option DF
deriving DecidableEq

/-- The observable outcome of a whole invocation. -/
structure RunResult where
  exitCode : Nat
  stdout : List Msg
  stderr : List Msg
  written : Option DF
deriving DecidableEq

/-- Line 34: `pd.DataFrame(cleaned, index=df_raw.index)` when the cleaning
stage returned an array-like.  Default integer column labels become their
decimal strings; a row-count mismatch with the index raises. -/
def coerceClean (raw : DF) : CleanOut → Except Err DF
  | .frame d => .ok d
  | .array (.d1 v) =>
      if v.length = raw.nrows then .ok ⟨raw.nrows, [("0", v)]⟩
      else .error (.other "Shape of passed values does not match indices")
  | .array (.d2 w rows) =>
      if rows.length = raw.nrows then
        .ok ⟨raw.nrows,
             (List.range w).map (fun j => (toString j, (NDArray.d2 w rows).col j))⟩
      else .error (.other "Shape of passed values does not match indices")

/-- Lines 24-40, `get_cleaned_df_from_pipeline`: run the `cleaning` stage if
present; coerce a non-DataFrame result; on any exception warn on stderr and
fall back to a copy of the raw frame.  Returns the cleaned frame and the
stderr lines emitted. -/
def get_cleaned_df_from_pipeline (pipeline : Pipeline) (df_raw : DF) :
    DF × List Msg :=
  match pipeline.cleaning with
  | some tf =>
      match (tf df_raw).bind (coerceClean df_raw) with
      | .ok cleaned => (cleaned, [])
      | .error e => (df_raw, [.avisoLimpio e.msg])
  | none => (df_raw, [])

/-- Lines 87-88: insert the identifier column at the front when it exists in
the raw frame and is not already a column of the results frame. -/
def insertId (id_col : String) (raw res : DF) : Except Err DF :=
  if id_col ∈ raw.columns ∧ id_col ∉ res.columns then
    res.insertFront id_col (raw.getColD id_col)
  else .ok res

/-- Lines 94-100: append probability columns when probabilities exist; the
2-D ≥2-column shape yields the two named class columns, anything else a
single flattened column. -/
def addProba (res : DF) : Option NDArray → Except Err DF
  | none => .ok res
  | some a =>
      if a.ndim = 2 ∧ 2 ≤ a.shape1 then
        (res.setCol "Probabilidad_No_Default" (a.col 0)).bind
          (fun r => r.setCol "Probabilidad_Default" (a.col 1))
      else
        res.setCol "Probabilidad" a.ravel

/-- Lines 85-100: assemble the results frame from the cleaned frame, the
identifier column, the predictions, and the optional probabilities. -/
def buildResults (id_col : String) (raw cleaned : DF) (preds : List Val)
    (proba : Option NDArray) : Except Err DF :=
  (insertId id_col raw cleaned).bind (fun r1 =>
    (r1.setCol "Prediccion" preds).bind (fun r2 => addProba r2 proba))

/-- Line 117's guard on the probability shape: `has_proba and probabilities
is not None and probabilities.ndim == 2 and probabilities.shape[1] >= 2`. -/
def wideOf : Option NDArray → Bool
  | some (.d2 w _) => 2 ≤ w
  | _ => false

/-- Lines 116-120: the preferred preview column names in order. -/
def colsShow (id_col : String) (res : DF) (wide : Bool) : List String :=
  let cols_show1 :=
    if wide then ["Prediccion", "Probabilidad_Default"] else ["Prediccion"]
  if id_col ∈ res.columns then id_col :: cols_show1 else cols_show1

/-- Line 122: the preferred preview columns that actually exist. -/
def previewCols (id_col : String) (res : DF) (proba : Option NDArray) :
    List String :=
  (colsShow id_col res (wideOf proba)).filter (fun c => res.columns.contains c)

/-- Lines 124-127: which preview is printed. -/
def previewMsg (id_col : String) (res : DF) (proba : Option NDArray) : Msg :=
  if (previewCols id_col res proba).isEmpty then .previewAll
  else .previewSel (previewCols id_col res proba)

/-- Lines 102-127: save the results, report, and preview.  Factored out of
`runBody` so both probability branches share it; `so` is the stdout produced
so far. -/
def continueRun (fs : FS) (args : Args) (test_data cleaned : DF)
    (warns : List Msg) (predictions : List Val) (proba : Option NDArray)
    (so : List Msg) : St × Option Err :=
  match buildResults args.id_col test_data cleaned predictions proba with
  | .error e => (⟨so, warns, none⟩, some e)
  | .ok results =>
      match fs.write args.out results with
      | .error e => (⟨so, warns, none⟩, some e)
      | .ok _ =>
          (⟨so ++ [.saved args.out, .numPreds predictions.length, .dist]
              ++ [.primeras args.head, previewMsg args.id_col results proba],
            warns, some results⟩, none)

/-- Lines 59-127: the body of the `try` block.  Returns the accumulated state
and the exception that escaped, if any. -/
def runBody (fs : FS) (args : Args) : St × Option Err :=
  match fs.readCsv args.csv with
  | .error e => (⟨[], [], none⟩, some e)
  | .ok test_data =>
      let so1 : List Msg :=
        [.header, .inputFile args.csv, .shapeRaw test_data.nrows test_data.ncols]
      match fs.loadPkl args.pkl with
      | .error e => (⟨so1, [], none⟩, some e)
      | .ok pipeline =>
          match get_cleaned_df_from_pipeline pipeline test_data with
          | (cleaned, warns) =>
              let so2 := so1 ++ [.shapeCleaned cleaned.nrows cleaned.ncols]
              match pipeline.predict test_data with
              | .error e => (⟨so2, warns, none⟩, some e)
              | .ok predictions =>
                  match pipeline.predict_proba test_data with
                  | .error _ =>
                      continueRun fs args test_data cleaned warns predictions
                        none (so2 ++ [.avisoProba])
                  | .ok probabilities =>
                      continueRun fs args test_data cleaned warns predictions
                        (some probabilities) so2

/-- Lines 42-134, `main`: fail-fast existence checks, then the `try` body with
the two `except` handlers mapping a `FileNotFoundError` to exit 1 and any
other exception to exit 2. -/
def mainRun (fs : FS) (args : Args) : RunResult :=
  if fs.pathExists args.csv then
    if fs.pathExists args.pkl then
      match runBody fs args with
      | (st, none) => ⟨0, st.stdout, st.stderr, st.written⟩
      | (st, some (.fileNotFound m)) =>
          ⟨1, st.stdout, st.stderr ++ [.archivoNoEncontrado m], st.written⟩
      | (st, some (.other m)) =>
          ⟨2, st.stdout, st.stderr ++ [.errorProcesar m], st.written⟩
    else ⟨1, [], [.missingPkl args.pkl], none⟩
  else ⟨1, [], [.missingCsv args.csv], none⟩

/-- The cleaned frame a run derives (first component of
`get_cleaned_df_from_pipeline`). -/
def cleanedOf (p : Pipeline) (raw : DF) : DF :=
  (get_cleaned_df_from_pipeline p raw).1

/-- The probability-column names the script can generate. -/
def probNames : List String :=
  ["Probabilidad_No_Default", "Probabilidad_Default", "Probabilidad"]

/-- Every column name the script generates itself. -/
def specialNames : List String := "Prediccion" :: probNames

/-- The probabilities a run obtains: `none` exactly when `predict_proba` is
unsupported or raises (lines 76-82). -/
def probaOpt (p : Pipeline) (raw : DF) : Option NDArray :=
  match p.predict_proba raw with
  | .ok a => some a
  | .error _ => none

/-- The stdout lines printed before the probability step (lines 62-64, 70). -/
def soPrefix (args : Args) (raw cl : DF) : List Msg :=
  [.header, .inputFile args.csv, .shapeRaw raw.nrows raw.ncols,
   .shapeCleaned cl.nrows cl.ncols]

/-! ### Basic lemmas about the embedded pandas operations -/

theorem except_bind_ok {α β : Type} {x : Except Err α} {f : α → Except Err β}
    {b : β} (h : x.bind f = .ok b) : ∃ a, x = .ok a ∧ f a = .ok b := by
  cases x with
  | error e => simp [Except.bind] at h
  | ok a => exact ⟨a, rfl, by simpa [Except.bind] using h⟩

/-- Replacement half of `setColsAux`. -/
def replaceCol (cols : List (String × List Val)) (n : String) (v : List Val) :
    List (String × List Val) :=
  cols.map (fun c => if c.1 == n then (n, v) else c)

theorem setColsAux_pos {cols : List (String × List Val)} {n : String}
    {v : List Val} (ha : cols.any (fun c => c.1 == n) = true) :
    setColsAux cols n v = replaceCol cols n v := by
  simp [setColsAux, replaceCol, ha]

theorem setColsAux_neg {cols : List (String × List Val)} {n : String}
    {v : List Val} (ha : cols.any (fun c => c.1 == n) = false) :
    setColsAux cols n v = cols ++ [(n, v)] := by
  simp [setColsAux, ha]

theorem find?_replaceCol_self {cols : List (String × List Val)} {n : String}
    (v : List Val) (ha : cols.any (fun c => c.1 == n) = true) :
    (replaceCol cols n v).find? (fun c => c.1 == n) = some (n, v) := by
  induction cols with
  | nil => simp at ha
  | cons c cs ih =>
    by_cases hc : (c.1 == n) = true
    · simp [replaceCol, List.find?, hc]
    · have hc' : (c.1 == n) = false := by simpa using hc
      have ha2 : cs.any (fun c => c.1 == n) = true := by
        simpa [hc'] using ha
      simpa [replaceCol, List.find?, hc'] using ih ha2

theorem find?_append_single_self {cols : List (String × List Val)} {n : String}
    (v : List Val) (ha : cols.any (fun c => c.1 == n) = false) :
    (cols ++ [(n, v)]).find? (fun c => c.1 == n) = some (n, v) := by
  induction cols with
  | nil => simp [List.find?]
  | cons c cs ih =>
    have hc : (c.1 == n) = false := by
      have h := List.any_eq_false.mp ha c (List.mem_cons_self c cs)
      simpa using h
    have ha2 : cs.any (fun c => c.1 == n) = false := by
      simpa [hc] using ha
    simpa [List.find?, hc] using ih ha2

theorem find?_setColsAux_self (cols : List (String × List Val)) (n : String)
    (v : List Val) :
    (setColsAux cols n v).find? (fun c => c.1 == n) = some (n, v) := by
  by_cases ha : cols.any (fun c => c.1 == n) = true
  · rw [setColsAux_pos ha]; exact find?_replaceCol_self v ha
  · have ha' : cols.any (fun c => c.1 == n) = false := Bool.eq_false_iff.mpr ha
    rw [setColsAux_neg ha']
    exact find?_append_single_self v ha'

theorem find?_replaceCol_ne {n m : String} (cols : List (String × List Val))
    (v : List Val) (hmn : m ≠ n) :
    (replaceCol cols n v).find? (fun c => c.1 == m)
      = cols.find? (fun c => c.1 == m) := by
  induction cols with
  | nil => rfl
  | cons c cs ih =>
    by_cases hc : (c.1 == n) = true
    · have hc1 : c.1 = n := by simpa using hc
      have hcm : (c.1 == m) = false := by
        simp [hc1]; exact fun h => hmn h.symm
      have hnm : ((n : String) == m) = false := by
        simp; exact fun h => hmn h.symm
      simpa [replaceCol, List.find?, hc, hcm, hnm] using ih
    · have hc' : (c.1 == n) = false := by simpa using hc
      by_cases hcm : (c.1 == m) = true
      · simp [replaceCol, List.find?, hc', hcm]
      · have hcm' : (c.1 == m) = false := by simpa using hcm
        simpa [replaceCol, List.find?, hc', hcm'] using ih

theorem find?_append_single_ne {n m : String} (cols : List (String × List Val))
    (v : List Val) (hmn : m ≠ n) :
    (cols ++ [(n, v)]).find? (fun c => c.1 == m)
      = cols.find? (fun c => c.1 == m) := by
  induction cols with
  | nil =>
    have hnm : ((n : String) == m) = false := by
      simp; exact fun h => hmn h.symm
    simp [List.find?, hnm]
  | cons c cs ih =>
    by_cases hcm : (c.1 == m) = true
    · simp [List.find?, hcm]
    · have hcm' : (c.1 == m) = false := by simpa using hcm
      simpa [List.find?, hcm'] using ih

theorem find?_setColsAux_ne {n m : String} (cols : List (String × List Val))
    (v : List Val) (hmn : m ≠ n) :
    (setColsAux cols n v).find? (fun c => c.1 == m)
      = cols.find? (fun c => c.1 == m) := by
  by_cases ha : cols.any (fun c => c.1 == n) = true
  · rw [setColsAux_pos ha]; exact find?_replaceCol_ne cols v hmn
  · rw [setColsAux_neg (Bool.eq_false_iff.mpr ha)]
    exact find?_append_single_ne cols v hmn

theorem mem_fst_setColsAux {cols : List (String × List Val)} {n m : String}
    {v : List Val} :
    m ∈ (setColsAux cols n v).map Prod.fst
      ↔ m ∈ cols.map Prod.fst ∨ m = n := by
  by_cases ha : cols.any (fun c => c.1 == n) = true
  · rw [setColsAux_pos ha]
    constructor
    · intro h
      rcases List.mem_map.mp h with ⟨c', hc', hfst⟩
      rcases List.mem_map.mp hc' with ⟨c, hc, hrepl⟩
      by_cases hcn : (c.1 == n) = true
      · right; rw [← hfst, ← hrepl]; simp [hcn]
      · left
        have hcc : c' = c := by rw [← hrepl]; simp [hcn]
        exact List.mem_map.mpr ⟨c, hc, by rw [← hfst, hcc]⟩
    · intro h
      rcases h with h | heq
      · rcases List.mem_map.mp h with ⟨c, hc, hfst⟩
        refine List.mem_map.mpr
          ⟨if c.1 == n then (n, v) else c,
           List.mem_map.mpr ⟨c, hc, rfl⟩, ?_⟩
        by_cases hcn : (c.1 == n) = true
        · have h1 : c.1 = n := by simpa using hcn
          rw [if_pos hcn]
          exact h1 ▸ hfst
        · rw [if_neg hcn]; exact hfst
      · subst heq
        rcases List.any_eq_true.mp ha with ⟨c, hc, hcn⟩
        exact List.mem_map.mpr
          ⟨(m, v), List.mem_map.mpr ⟨c, hc, by simp [hcn]⟩, rfl⟩
  · rw [setColsAux_neg (Bool.eq_false_iff.mpr ha)]
    simp [List.mem_append]

theorem head?_setColsAux {c0 : String × List Val}
    {rest : List (String × List Val)} {n : String} {v : List Val}
    (hne : c0.1 ≠ n) :
    (setColsAux (c0 :: rest) n v).head? = some c0 := by
  have hc : (c0.1 == n) = false := by simpa using hne
  by_cases ha : (c0 :: rest).any (fun c => c.1 == n) = true
  · rw [setColsAux_pos ha]
    show ((if c0.1 == n then (n, v) else c0) :: _).head? = some c0
    rw [if_neg (by simp [hc])]
    rfl
  · rw [setColsAux_neg (Bool.eq_false_iff.mpr ha)]; rfl

theorem filter_replaceCol {cols : List (String × List Val)} {n : String}
    {v : List Val} (q : String × List Val → Bool)
    (hq : ∀ c : String × List Val, c.1 = n → q c = false) :
    (replaceCol cols n v).filter q = cols.filter q := by
  induction cols with
  | nil => rfl
  | cons c cs ih =>
    by_cases hcn : (c.1 == n) = true
    · have h1 : q (n, v) = false := hq (n, v) rfl
      have h2 : q c = false := hq c (by simpa using hcn)
      simpa [replaceCol, List.filter, hcn, h1, h2] using ih
    · have hcn' : (c.1 == n) = false := by simpa using hcn
      cases hqc : q c with
      | true => simpa [replaceCol, List.filter, hcn', hqc] using ih
      | false => simpa [replaceCol, List.filter, hcn', hqc] using ih

theorem filter_setColsAux {cols : List (String × List Val)} {n : String}
    {v : List Val} (q : String × List Val → Bool)
    (hq : ∀ c : String × List Val, c.1 = n → q c = false) :
    (setColsAux cols n v).filter q = cols.filter q := by
  by_cases ha : cols.any (fun c => c.1 == n) = true
  · rw [setColsAux_pos ha]; exact filter_replaceCol q hq
  · rw [setColsAux_neg (Bool.eq_false_iff.mpr ha)]
    have h1 : q (n, v) = false := hq (n, v) rfl
    simp [List.filter_append, List.filter, h1]

theorem DF.setCol_ok {d d' : DF} {n : String} {v : List Val}
    (h : d.setCol n v = .ok d') :
    v.length = d.nrows ∧ d' = ⟨d.nrows, setColsAux d.cols n v⟩ := by
  unfold DF.setCol at h
  by_cases hl : v.length = d.nrows
  · rw [if_pos hl] at h
    refine ⟨hl, ?_⟩
    injection h with h
    exact h.symm
  · rw [if_neg hl] at h; simp at h

theorem DF.setCol_nrows {d d' : DF} {n : String} {v : List Val}
    (h : d.setCol n v = .ok d') : d'.nrows = d.nrows := by
  rw [(DF.setCol_ok h).2]

theorem DF.setCol_getCol_self {d d' : DF} {n : String} {v : List Val}
    (h : d.setCol n v = .ok d') : d'.getCol n = some v := by
  rw [(DF.setCol_ok h).2]
  unfold DF.getCol
  rw [find?_setColsAux_self]
  rfl

theorem DF.setCol_getCol_ne {d d' : DF} {n m : String} {v : List Val}
    (h : d.setCol n v = .ok d') (hmn : m ≠ n) : d'.getCol m = d.getCol m := by
  rw [(DF.setCol_ok h).2]
  unfold DF.getCol
  rw [find?_setColsAux_ne d.cols v hmn]

theorem DF.setCol_mem_columns {d d' : DF} {n m : String} {v : List Val}
    (h : d.setCol n v = .ok d') :
    m ∈ d'.columns ↔ m ∈ d.columns ∨ m = n := by
  rw [(DF.setCol_ok h).2]
  exact mem_fst_setColsAux

theorem DF.setCol_head? {d d' : DF} {n : String} {v : List Val}
    {c0 : String × List Val} (h : d.setCol n v = .ok d')
    (hh : d.cols.head? = some c0) (hne : c0.1 ≠ n) :
    d'.cols.head? = some c0 := by
  rw [(DF.setCol_ok h).2]
  cases hc : d.cols with
  | nil => rw [hc] at hh; simp at hh
  | cons a l =>
    rw [hc] at hh
    have ha : a = c0 := by simpa using hh
    subst ha
    show (setColsAux (a :: l) n v).head? = some a
    exact head?_setColsAux hne

theorem DF.setCol_filter {d d' : DF} {n : String} {v : List Val}
    (h : d.setCol n v = .ok d') (q : String × List Val → Bool)
    (hq : ∀ c : String × List Val, c.1 = n → q c = false) :
    d'.cols.filter q = d.cols.filter q := by
  rw [(DF.setCol_ok h).2]
  exact filter_setColsAux q hq

theorem DF.mem_columns_of_getCol {d : DF} {n : String} {vs : List Val}
    (h : d.getCol n = some vs) : n ∈ d.columns := by
  unfold DF.getCol at h
  cases hf : d.cols.find? (fun c => c.1 == n) with
  | none => rw [hf] at h; simp at h
  | some c =>
    have hc : c ∈ d.cols := List.mem_of_find?_eq_some hf
    have hp := List.find?_some hf
    have : c.1 = n := by simpa using hp
    exact this ▸ List.mem_map.mpr ⟨c, hc, rfl⟩

theorem DF.insertFront_ok {d d' : DF} {n : String} {v : List Val}
    (h : d.insertFront n v = .ok d') :
    v.length = d.nrows ∧ d' = ⟨d.nrows, (n, v) :: d.cols⟩ := by
  unfold DF.insertFront at h
  by_cases hl : v.length = d.nrows
  · rw [if_pos hl] at h
    refine ⟨hl, ?_⟩
    injection h with h
    exact h.symm
  · rw [if_neg hl] at h; simp at h

/-- Case analysis of the guarded identifier insertion. -/
theorem insertId_ok {i : String} {raw res r1 : DF}
    (h : insertId i raw res = .ok r1) :
    (i ∈ raw.columns ∧ i ∉ res.columns
        ∧ r1 = ⟨res.nrows, (i, raw.getColD i) :: res.cols⟩
        ∧ (raw.getColD i).length = res.nrows)
      ∨ (¬(i ∈ raw.columns ∧ i ∉ res.columns) ∧ r1 = res) := by
  unfold insertId at h
  by_cases hc : i ∈ raw.columns ∧ i ∉ res.columns
  · rw [if_pos hc] at h
    rcases DF.insertFront_ok h with ⟨hl, he⟩
    exact Or.inl ⟨hc.1, hc.2, he, hl⟩
  · rw [if_neg hc] at h
    refine Or.inr ⟨hc, ?_⟩
    injection h with h
    exact h.symm

theorem addProba_none (r : DF) : addProba r none = .ok r := rfl

theorem addProba_some_wide {r res : DF} {a : NDArray}
    (hw : a.ndim = 2 ∧ 2 ≤ a.shape1) (h : addProba r (some a) = .ok res) :
    ∃ rm, r.setCol "Probabilidad_No_Default" (a.col 0) = .ok rm
      ∧ rm.setCol "Probabilidad_Default" (a.col 1) = .ok res := by
  simp only [addProba] at h
  rw [if_pos hw] at h
  exact except_bind_ok h

theorem addProba_some_narrow {r res : DF} {a : NDArray}
    (hw : ¬(a.ndim = 2 ∧ 2 ≤ a.shape1)) (h : addProba r (some a) = .ok res) :
    r.setCol "Probabilidad" a.ravel = .ok res := by
  simp only [addProba] at h
  rwa [if_neg hw] at h

/-- Successful assembly decomposes into its three stages. -/
theorem buildResults_ok {i : String} {raw cl res : DF} {preds : List Val}
    {pr : Option NDArray} (h : buildResults i raw cl preds pr = .ok res) :
    ∃ r1 r2, insertId i raw cl = .ok r1
      ∧ r1.setCol "Prediccion" preds = .ok r2
      ∧ addProba r2 pr = .ok res := by
  unfold buildResults at h
  rcases except_bind_ok h with ⟨r1, h1, h2⟩
  rcases except_bind_ok h2 with ⟨r2, h3, h4⟩
  exact ⟨r1, r2, h1, h3, h4⟩

/-- `addProba` only grows the column set. -/
theorem addProba_mem_columns {r res : DF} {pr : Option NDArray} {m : String}
    (h : addProba r pr = .ok res) (hm : m ∈ r.columns) : m ∈ res.columns := by
  cases pr with
  | none =>
    have : r = res := by injection h with h
    exact this ▸ hm
  | some a =>
    by_cases hw : a.ndim = 2 ∧ 2 ≤ a.shape1
    · rcases addProba_some_wide hw h with ⟨rm, h1, h2⟩
      exact (DF.setCol_mem_columns h2).mpr
        (Or.inl ((DF.setCol_mem_columns h1).mpr (Or.inl hm)))
    · exact (DF.setCol_mem_columns (addProba_some_narrow hw h)).mpr (Or.inl hm)

/-- Every successfully assembled results table has the `Prediccion` column. -/
theorem buildResults_mem_Prediccion {i : String} {raw cl res : DF}
    {preds : List Val} {pr : Option NDArray}
    (h : buildResults i raw cl preds pr = .ok res) :
    "Prediccion" ∈ res.columns := by
  rcases buildResults_ok h with ⟨r1, r2, _, h2, h3⟩
  exact addProba_mem_columns h3
    (DF.mem_columns_of_getCol (DF.setCol_getCol_self h2))

/-! ### Run-level unfolding lemmas -/

theorem get_cleaned_none {p : Pipeline} {raw : DF} (h : p.cleaning = none) :
    get_cleaned_df_from_pipeline p raw = (raw, []) := by
  unfold get_cleaned_df_from_pipeline
  rw [h]

theorem get_cleaned_error {p : Pipeline} {raw : DF}
    {tf : DF → Except Err CleanOut} {e : Err} (h : p.cleaning = some tf)
    (he : (tf raw).bind (coerceClean raw) = .error e) :
    get_cleaned_df_from_pipeline p raw = (raw, [.avisoLimpio e.msg]) := by
  simp only [get_cleaned_df_from_pipeline, h, he]

theorem get_cleaned_stderr_isError (p : Pipeline) (raw : DF) :
    ∀ m ∈ (get_cleaned_df_from_pipeline p raw).2, m.isError = true := by
  unfold get_cleaned_df_from_pipeline
  cases hc : p.cleaning with
  | none => simp
  | some tf =>
    cases ht : (tf raw).bind (coerceClean raw) with
    | ok cl => simp [ht]
    | error e => simp [ht, Msg.isError]

theorem continueRun_ok {fs : FS} {args : Args} {td cl : DF} {warns : List Msg}
    {preds : List Val} {proba : Option NDArray} {so : List Msg} {res : DF}
    (hbuild : buildResults args.id_col td cl preds proba = .ok res)
    (hwrite : fs.write args.out res = .ok ()) :
    continueRun fs args td cl warns preds proba so =
      (⟨so ++ [.saved args.out, .numPreds preds.length, .dist]
          ++ [.primeras args.head, previewMsg args.id_col res proba],
        warns, some res⟩, none) := by
  unfold continueRun
  simp only [hbuild, hwrite]

theorem continueRun_build_error {fs : FS} {args : Args} {td cl : DF}
    {warns : List Msg} {preds : List Val} {proba : Option NDArray}
    {so : List Msg} {e : Err}
    (hbuild : buildResults args.id_col td cl preds proba = .error e) :
    continueRun fs args td cl warns preds proba so
      = (⟨so, warns, none⟩, some e) := by
  unfold continueRun
  simp only [hbuild]

theorem continueRun_write_error {fs : FS} {args : Args} {td cl : DF}
    {warns : List Msg} {preds : List Val} {proba : Option NDArray}
    {so : List Msg} {res : DF} {e : Err}
    (hbuild : buildResults args.id_col td cl preds proba = .ok res)
    (hwrite : fs.write args.out res = .error e) :
    continueRun fs args td cl warns preds proba so
      = (⟨so, warns, none⟩, some e) := by
  unfold continueRun
  simp only [hbuild, hwrite]

theorem runBody_eq {fs : FS} {args : Args} {raw : DF} {p : Pipeline}
    (hread : fs.readCsv args.csv = .ok raw)
    (hload : fs.loadPkl args.pkl = .ok p) :
    runBody fs args =
      match p.predict raw with
      | .error e =>
          (⟨soPrefix args raw (cleanedOf p raw),
            (get_cleaned_df_from_pipeline p raw).2, none⟩, some e)
      | .ok preds =>
          match p.predict_proba raw with
          | .error _ =>
              continueRun fs args raw (cleanedOf p raw)
                (get_cleaned_df_from_pipeline p raw).2 preds none
                (soPrefix args raw (cleanedOf p raw) ++ [.avisoProba])
          | .ok a =>
              continueRun fs args raw (cleanedOf p raw)
                (get_cleaned_df_from_pipeline p raw).2 preds (some a)
                (soPrefix args raw (cleanedOf p raw)) := by
  unfold runBody cleanedOf
  rcases hg : get_cleaned_df_from_pipeline p raw with ⟨cl, ws⟩
  simp only [hread, hload, hg]
  cases hp : p.predict raw with
  | error e => rfl
  | ok preds =>
    cases hq : p.predict_proba raw with
    | error e => rfl
    | ok a => rfl

theorem mainRun_of_runBody {fs : FS} {args : Args} {st : St} {e? : Option Err}
    (hcsv : fs.pathExists args.csv = true)
    (hpkl : fs.pathExists args.pkl = true)
    (h : runBody fs args = (st, e?)) :
    mainRun fs args =
      match e? with
      | none => ⟨0, st.stdout, st.stderr, st.written⟩
      | some (.fileNotFound m) =>
          ⟨1, st.stdout, st.stderr ++ [.archivoNoEncontrado m], st.written⟩
      | some (.other m) =>
          ⟨2, st.stdout, st.stderr ++ [.errorProcesar m], st.written⟩ := by
  unfold mainRun
  cases e? with
  | none => simp [hcsv, hpkl, h]
  | some e => cases e <;> simp [hcsv, hpkl, h]

theorem mem_Prediccion_colsShow (id_col : String) (res : DF) (wide : Bool) :
    "Prediccion" ∈ colsShow id_col res wide := by
  unfold colsShow
  cases wide <;> by_cases hid : id_col ∈ res.columns <;> simp [hid]

theorem previewMsg_sel {id_col : String} {res : DF} {proba : Option NDArray}
    (h : "Prediccion" ∈ res.columns) :
    previewMsg id_col res proba
        = .previewSel (previewCols id_col res proba)
      ∧ "Prediccion" ∈ previewCols id_col res proba := by
  have hmem : "Prediccion" ∈ previewCols id_col res proba := by
    unfold previewCols
    refine List.mem_filter.mpr ⟨mem_Prediccion_colsShow _ _ _, ?_⟩
    simp [List.contains, h]
  refine ⟨?_, hmem⟩
  unfold previewMsg
  rw [if_neg]
  intro hemp
  rw [List.isEmpty_iff] at hemp
  rw [hemp] at hmem
  simp at hmem

/-- Console lines of the report tail: stderr is always exactly the cleaning
warnings, and stdout lines are progress lines — in particular the preview
fallback line never appears, because an assembled results table always has
the `Prediccion` column. -/
theorem continueRun_console {fs : FS} {args : Args} {td cl : DF}
    {warns : List Msg} {preds : List Val} {proba : Option NDArray}
    {so : List Msg}
    (hso : ∀ m ∈ so, m.isError = false ∧ m ≠ Msg.previewAll)
    (hwa : ∀ m ∈ warns, m.isError = true) :
    (∀ m ∈ (continueRun fs args td cl warns preds proba so).1.stdout,
        m.isError = false ∧ m ≠ Msg.previewAll)
    ∧ (∀ m ∈ (continueRun fs args td cl warns preds proba so).1.stderr,
        m.isError = true) := by
  cases hb : buildResults args.id_col td cl preds proba with
  | error e =>
    rw [continueRun_build_error hb]
    exact ⟨hso, hwa⟩
  | ok res =>
    cases hwv : fs.write args.out res with
    | error e =>
      rw [continueRun_write_error hb hwv]
      exact ⟨hso, hwa⟩
    | ok u =>
      cases u
      rw [continueRun_ok hb hwv]
      have hpm :=
        (@previewMsg_sel args.id_col res proba
          (buildResults_mem_Prediccion hb)).1
      refine ⟨?_, hwa⟩
      intro m hm
      simp only [List.mem_append, List.mem_cons, List.mem_singleton,
        List.not_mem_nil, or_false] at hm
      rcases hm with ((hm | hm | hm | hm) | hm | hm)
      · exact hso m hm
      · subst hm; exact ⟨rfl, by simp⟩
      · subst hm; exact ⟨rfl, by simp⟩
      · subst hm; exact ⟨rfl, by simp⟩
      · subst hm; exact ⟨rfl, by simp⟩
      · subst hm; rw [hpm]; exact ⟨rfl, by simp⟩

/-- Console-line classification for the whole `try` body. -/
theorem runBody_console (fs : FS) (args : Args) :
    (∀ m ∈ (runBody fs args).1.stdout, m.isError = false ∧ m ≠ Msg.previewAll)
    ∧ (∀ m ∈ (runBody fs args).1.stderr, m.isError = true) := by
  unfold runBody
  cases hr : fs.readCsv args.csv with
  | error e => simp
  | ok td =>
    cases hl : fs.loadPkl args.pkl with
    | error e =>
      simp only [hl]
      constructor
      · intro m hm
        simp only [List.mem_cons, List.not_mem_nil, or_false] at hm
        rcases hm with hm | hm | hm <;> subst hm <;> exact ⟨rfl, by simp⟩
      · simp
    | ok p =>
      rcases hg : get_cleaned_df_from_pipeline p td with ⟨cl, ws⟩
      have hws : ∀ m ∈ ws, m.isError = true := by
        have := get_cleaned_stderr_isError p td
        rw [hg] at this
        exact this
      have hso2 : ∀ m ∈ ([Msg.header, Msg.inputFile args.csv,
          Msg.shapeRaw td.nrows td.ncols]
            ++ [Msg.shapeCleaned cl.nrows cl.ncols] : List Msg),
          m.isError = false ∧ m ≠ Msg.previewAll := by
        intro m hm
        simp only [List.mem_append, List.mem_cons, List.not_mem_nil,
          or_false] at hm
        rcases hm with (hm | hm | hm) | hm <;> subst hm <;> exact ⟨rfl, by simp⟩
      simp only [hl, hg]
      cases hp : p.predict td with
      | error e => exact ⟨hso2, hws⟩
      | ok preds =>
        cases hq : p.predict_proba td with
        | error e =>
          refine continueRun_console ?_ hws
          intro m hm
          simp only [List.mem_append, List.mem_cons, List.not_mem_nil,
            or_false] at hm
          rcases hm with ((hm | hm | hm) | hm) | hm <;> subst hm
            <;> exact ⟨rfl, by simp⟩
        | ok a =>
          exact continueRun_console hso2 hws

/-- Console-line classification for a whole invocation. -/
theorem mainRun_console (fs : FS) (args : Args) :
    (∀ m ∈ (mainRun fs args).stdout, m.isError = false ∧ m ≠ Msg.previewAll)
    ∧ (∀ m ∈ (mainRun fs args).stderr, m.isError = true) := by
  unfold mainRun
  cases hc : fs.pathExists args.csv with
  | false => simp [Msg.isError]
  | true =>
    cases hk : fs.pathExists args.pkl with
    | false => simp [Msg.isError]
    | true =>
      rcases hrb : runBody fs args with ⟨st, e?⟩
      have hcon := runBody_console fs args
      rw [hrb] at hcon
      cases e? with
      | none => simpa using hcon
      | some e =>
        cases e with
        | fileNotFound m =>
          constructor
          · exact fun m hm => hcon.1 m hm
          · intro x hx
            rcases List.mem_append.mp hx with hx | hx
            · exact hcon.2 x hx
            · have hx2 : x = Msg.archivoNoEncontrado m := by simpa using hx
              subst hx2; rfl
        | other m =>
          constructor
          · exact fun m hm => hcon.1 m hm
          · intro x hx
            rcases List.mem_append.mp hx with hx | hx
            · exact hcon.2 x hx
            · have hx2 : x = Msg.errorProcesar m := by simpa using hx
              subst hx2; rfl

theorem DF.setCol_columns_append {d d' : DF} {n : String} {v : List Val}
    (h : d.setCol n v = .ok d') (hn : n ∉ d.columns) :
    d'.columns = d.columns ++ [n] := by
  have ha : d.cols.any (fun c => c.1 == n) = false := by
    apply List.any_eq_false.mpr
    intro c hc
    simp only [beq_iff_eq]
    intro he
    exact hn (he ▸ List.mem_map.mpr ⟨c, hc, rfl⟩)
  rw [(DF.setCol_ok h).2]
  show (setColsAux d.cols n v).map Prod.fst = d.cols.map Prod.fst ++ [n]
  rw [setColsAux_neg ha, List.map_append]
  rfl

theorem DF.getCol_isSome_of_mem {d : DF} {n : String} (h : n ∈ d.columns) :
    ∃ vs, d.getCol n = some vs := by
  rcases List.mem_map.mp h with ⟨c, hc, hfst⟩
  have : (d.cols.find? (fun c => c.1 == n)).isSome := by
    rw [List.find?_isSome]
    exact ⟨c, hc, by simp [hfst]⟩
  rcases Option.isSome_iff_exists.mp this with ⟨c', hc'⟩
  refine ⟨c'.2, ?_⟩
  unfold DF.getCol
  rw [hc']
  rfl

theorem DF.getCol_eq_some_getColD {d : DF} {n : String} (h : n ∈ d.columns) :
    d.getCol n = some (d.getColD n) := by
  rcases DF.getCol_isSome_of_mem h with ⟨vs, hvs⟩
  rw [hvs]
  unfold DF.getColD
  rw [hvs]
  rfl

theorem addProba_nrows {r res : DF} {pr : Option NDArray}
    (h : addProba r pr = .ok res) : res.nrows = r.nrows := by
  cases pr with
  | none =>
    have he : r = res := by injection h
    rw [he]
  | some a =>
    by_cases hw : a.ndim = 2 ∧ 2 ≤ a.shape1
    · rcases addProba_some_wide hw h with ⟨rm, h1, h2⟩
      rw [DF.setCol_nrows h2, DF.setCol_nrows h1]
    · rw [DF.setCol_nrows (addProba_some_narrow hw h)]

/-- `addProba` leaves every column not named like a probability column
untouched. -/
theorem addProba_getCol_ne {r res : DF} {pr : Option NDArray} {m : String}
    (h : addProba r pr = .ok res) (hm : m ∉ probNames) :
    res.getCol m = r.getCol m := by
  have hm1 : m ≠ "Probabilidad_No_Default" :=
    fun he => hm (by rw [he]; decide)
  have hm2 : m ≠ "Probabilidad_Default" :=
    fun he => hm (by rw [he]; decide)
  have hm3 : m ≠ "Probabilidad" := fun he => hm (by rw [he]; decide)
  cases pr with
  | none =>
    have he : r = res := by injection h
    rw [he]
  | some a =>
    by_cases hw : a.ndim = 2 ∧ 2 ≤ a.shape1
    · rcases addProba_some_wide hw h with ⟨rm, h1, h2⟩
      rw [DF.setCol_getCol_ne h2 hm2, DF.setCol_getCol_ne h1 hm1]
    · rw [DF.setCol_getCol_ne (addProba_some_narrow hw h) hm3]

theorem addProba_wide_cols {r res : DF} {a : NDArray}
    (hw : a.ndim = 2 ∧ 2 ≤ a.shape1) (h : addProba r (some a) = .ok res) :
    res.getCol "Probabilidad_No_Default" = some (a.col 0)
    ∧ res.getCol "Probabilidad_Default" = some (a.col 1) := by
  rcases addProba_some_wide hw h with ⟨rm, h1, h2⟩
  refine ⟨?_, DF.setCol_getCol_self h2⟩
  rw [DF.setCol_getCol_ne h2 (by decide), DF.setCol_getCol_self h1]

theorem addProba_narrow_col {r res : DF} {a : NDArray}
    (hw : ¬(a.ndim = 2 ∧ 2 ≤ a.shape1)) (h : addProba r (some a) = .ok res) :
    res.getCol "Probabilidad" = some a.ravel :=
  DF.setCol_getCol_self (addProba_some_narrow hw h)

theorem addProba_mem_columns_inv {r res : DF} {pr : Option NDArray}
    {m : String} (h : addProba r pr = .ok res) (hm : m ∈ res.columns) :
    m ∈ r.columns ∨ m ∈ probNames := by
  cases pr with
  | none =>
    have he : r = res := by injection h
    exact Or.inl (he ▸ hm)
  | some a =>
    by_cases hw : a.ndim = 2 ∧ 2 ≤ a.shape1
    · rcases addProba_some_wide hw h with ⟨rm, h1, h2⟩
      rcases (DF.setCol_mem_columns h2).mp hm with h3 | h3
      · rcases (DF.setCol_mem_columns h1).mp h3 with h4 | h4
        · exact Or.inl h4
        · exact Or.inr (by rw [h4]; decide)
      · exact Or.inr (by rw [h3]; decide)
    · rcases (DF.setCol_mem_columns (addProba_some_narrow hw h)).mp hm
        with h3 | h3
      · exact Or.inl h3
      · exact Or.inr (by rw [h3]; decide)

theorem addProba_head? {r res : DF} {pr : Option NDArray}
    {c0 : String × List Val} (h : addProba r pr = .ok res)
    (hh : r.cols.head? = some c0) (hc : c0.1 ∉ probNames) :
    res.cols.head? = some c0 := by
  have hm1 : c0.1 ≠ "Probabilidad_No_Default" :=
    fun he => hc (by rw [he]; decide)
  have hm2 : c0.1 ≠ "Probabilidad_Default" :=
    fun he => hc (by rw [he]; decide)
  have hm3 : c0.1 ≠ "Probabilidad" := fun he => hc (by rw [he]; decide)
  cases pr with
  | none =>
    have he : r = res := by injection h
    rw [← he]
    exact hh
  | some a =>
    by_cases hw : a.ndim = 2 ∧ 2 ≤ a.shape1
    · rcases addProba_some_wide hw h with ⟨rm, h1, h2⟩
      exact DF.setCol_head? h2 (DF.setCol_head? h1 hh hm1) hm2
    · exact DF.setCol_head? (addProba_some_narrow hw h) hh hm3

/-- When the cleaned frame is the raw frame itself, the guarded insertion
never fires. -/
theorem insertId_self (i : String) (raw : DF) :
    insertId i raw raw = .ok raw := by
  unfold insertId
  rw [if_neg (fun h => h.2 h.1)]

/-- A name distinct from the identifier and from `Prediccion` that is absent
from the cleaned frame is still absent after insertion and prediction
assignment. -/
theorem buildResults_pre_not_mem {i : String} {raw cl r1 r2 : DF}
    {preds : List Val} {n : String}
    (h1 : insertId i raw cl = .ok r1)
    (h2 : r1.setCol "Prediccion" preds = .ok r2)
    (hn : n ∉ cl.columns) (hni : n ≠ i) (hnp : n ≠ "Prediccion") :
    n ∉ r2.columns := by
  intro hmem
  rcases (DF.setCol_mem_columns h2).mp hmem with h | h
  · rcases insertId_ok h1 with ⟨_, _, he, _⟩ | ⟨_, he⟩
    · rw [he] at h
      rcases (by simpa [DF.columns] using h : n = i ∨ n ∈ cl.columns)
        with h | h
      · exact hni h
      · exact hn h
    · rw [he] at h
      exact hn h
  · exact hnp h

theorem continueRun_stderr {fs : FS} {args : Args} {td cl : DF}
    {warns : List Msg} {preds : List Val} {proba : Option NDArray}
    {so : List Msg} :
    (continueRun fs args td cl warns preds proba so).1.stderr = warns := by
  cases hb : buildResults args.id_col td cl preds proba with
  | error e => rw [continueRun_build_error hb]
  | ok res =>
    cases hwv : fs.write args.out res with
    | error e => rw [continueRun_write_error hb hwv]
    | ok u => cases u; rw [continueRun_ok hb hwv]

/-- Every line printed before calling the report tail stays on its stdout. -/
theorem continueRun_stdout_mem {fs : FS} {args : Args} {td cl : DF}
    {warns : List Msg} {preds : List Val} {proba : Option NDArray}
    {so : List Msg} {m : Msg} (hm : m ∈ so) :
    m ∈ (continueRun fs args td cl warns preds proba so).1.stdout := by
  cases hb : buildResults args.id_col td cl preds proba with
  | error e => rw [continueRun_build_error hb]; exact hm
  | ok res =>
    cases hwv : fs.write args.out res with
    | error e => rw [continueRun_write_error hb hwv]; exact hm
    | ok u =>
      cases u
      rw [continueRun_ok hb hwv]
      exact List.mem_append_left _ (List.mem_append_left _ hm)

/-- Past loading, the run's stderr is exactly the cleaning warnings. -/
theorem runBody_stderr_eq {fs : FS} {args : Args} {raw : DF} {p : Pipeline}
    (hread : fs.readCsv args.csv = .ok raw)
    (hload : fs.loadPkl args.pkl = .ok p) :
    (runBody fs args).1.stderr = (get_cleaned_df_from_pipeline p raw).2 := by
  rw [runBody_eq hread hload]
  cases hp : p.predict raw with
  | error e => rfl
  | ok preds =>
    cases hq : p.predict_proba raw with
    | error e => exact continueRun_stderr
    | ok a => exact continueRun_stderr

/-- Validation passed: the invocation's stdout is the body's stdout. -/
theorem mainRun_stdout_eq {fs : FS} {args : Args}
    (hcsv : fs.pathExists args.csv = true)
    (hpkl : fs.pathExists args.pkl = true) :
    (mainRun fs args).stdout = (runBody fs args).1.stdout := by
  rcases hrb : runBody fs args with ⟨st, e?⟩
  rw [mainRun_of_runBody hcsv hpkl hrb]
  cases e? with
  | none => rfl
  | some e => cases e <;> rfl

/-- Validation passed: the body's stderr lines all reach the invocation's
stderr. -/
theorem mainRun_stderr_mem {fs : FS} {args : Args} {m : Msg}
    (hcsv : fs.pathExists args.csv = true)
    (hpkl : fs.pathExists args.pkl = true)
    (hm : m ∈ (runBody fs args).1.stderr) :
    m ∈ (mainRun fs args).stderr := by
  rcases hrb : runBody fs args with ⟨st, e?⟩
  rw [hrb] at hm
  rw [mainRun_of_runBody hcsv hpkl hrb]
  cases e? with
  | none => exact hm
  | some e => cases e <;> exact List.mem_append_left _ hm

/-- Full run outcome when every step succeeds and `predict_proba` returns a
matrix. -/
theorem mainRun_ok_proba {fs : FS} {args : Args} {raw : DF} {p : Pipeline}
    {preds : List Val} {a : NDArray} {res : DF}
    (hcsv : fs.pathExists args.csv = true)
    (hpkl : fs.pathExists args.pkl = true)
    (hread : fs.readCsv args.csv = .ok raw)
    (hload : fs.loadPkl args.pkl = .ok p)
    (hpred : p.predict raw = .ok preds)
    (hq : p.predict_proba raw = .ok a)
    (hbuild : buildResults args.id_col raw (cleanedOf p raw) preds (some a)
      = .ok res)
    (hwrite : fs.write args.out res = .ok ()) :
    mainRun fs args =
      ⟨0,
       soPrefix args raw (cleanedOf p raw)
         ++ [.saved args.out, .numPreds preds.length, .dist]
         ++ [.primeras args.head, previewMsg args.id_col res (some a)],
       (get_cleaned_df_from_pipeline p raw).2, some res⟩ := by
  have hrb : runBody fs args =
      (⟨soPrefix args raw (cleanedOf p raw)
          ++ [.saved args.out, .numPreds preds.length, .dist]
          ++ [.primeras args.head, previewMsg args.id_col res (some a)],
        (get_cleaned_df_from_pipeline p raw).2, some res⟩, none) := by
    rw [runBody_eq hread hload]
    simp only [hpred, hq]
    rw [continueRun_ok hbuild hwrite]
  rw [mainRun_of_runBody hcsv hpkl hrb]

/-- Full run outcome when every step succeeds except `predict_proba`, which
raises: the notice lands on stdout and the run still succeeds. -/
theorem mainRun_ok_noproba {fs : FS} {args : Args} {raw : DF} {p : Pipeline}
    {preds : List Val} {e : Err} {res : DF}
    (hcsv : fs.pathExists args.csv = true)
    (hpkl : fs.pathExists args.pkl = true)
    (hread : fs.readCsv args.csv = .ok raw)
    (hload : fs.loadPkl args.pkl = .ok p)
    (hpred : p.predict raw = .ok preds)
    (hq : p.predict_proba raw = .error e)
    (hbuild : buildResults args.id_col raw (cleanedOf p raw) preds none
      = .ok res)
    (hwrite : fs.write args.out res = .ok ()) :
    mainRun fs args =
      ⟨0,
       (soPrefix args raw (cleanedOf p raw) ++ [.avisoProba])
         ++ [.saved args.out, .numPreds preds.length, .dist]
         ++ [.primeras args.head, previewMsg args.id_col res none],
       (get_cleaned_df_from_pipeline p raw).2, some res⟩ := by
  have hrb : runBody fs args =
      (⟨(soPrefix args raw (cleanedOf p raw) ++ [.avisoProba])
          ++ [.saved args.out, .numPreds preds.length, .dist]
          ++ [.primeras args.head, previewMsg args.id_col res none],
        (get_cleaned_df_from_pipeline p raw).2, some res⟩, none) := by
    rw [runBody_eq hread hload]
    simp only [hpred, hq]
    rw [continueRun_ok hbuild hwrite]
  rw [mainRun_of_runBody hcsv hpkl hrb]

/-! ### Concrete scenarios -/

/-- The spec's §8 example table: two rows, an `ID` column and a feature. -/
def rawA : DF := ⟨2, [("ID", [.num 1, .num 2]), ("x", [.num 5, .num 7])]⟩

/-- The spec's §8 example predictions. -/
def predsA : List Val := [.num 0, .num 1]

/-- A shape-(2, 2) probability matrix (integer-valued rationals keep kernel
evaluation cheap). -/
def probaA : NDArray :=
  .d2 2 [[.num 1, .num 0], [.num 0, .num 1]]

/-- Pipeline with no cleaning stage, working `predict` and `predict_proba`. -/
def pipeA : Pipeline := ⟨none, fun _ => .ok predsA, fun _ => .ok probaA⟩

/-- Pipeline whose `predict_proba` raises. -/
def pipeB : Pipeline :=
  ⟨none, fun _ => .ok predsA, fun _ => .error (.other "sin predict_proba")⟩

/-- Pipeline whose cleaning stage raises. -/
def pipeC : Pipeline :=
  ⟨some (fun _ => .error (.other "boom")), fun _ => .ok predsA,
   fun _ => .ok probaA⟩

/-- Two-row table without an `ID` column. -/
def rawNoId : DF := ⟨2, [("x", [.num 5, .num 7])]⟩

/-- Pipeline whose cleaning stage drops a row (returns a 1-row frame for the
2-row input) and whose `predict` returns one label. -/
def pipeShrink : Pipeline :=
  ⟨some (fun _ => .ok (.frame ⟨1, [("x", [.num 9])]⟩)),
   fun _ => .ok [.num 0],
   fun _ => .error (.other "sin predict_proba")⟩

/-- Two-row table that already contains a column named `Prediccion`. -/
def rawPred : DF :=
  ⟨2, [("Prediccion", [.num 5, .num 7]), ("x", [.num 1, .num 2])]⟩

/-- Pipeline whose cleaning stage drops the `Prediccion` column. -/
def pipeDrop : Pipeline :=
  ⟨some (fun _ => .ok (.frame ⟨2, [("x", [.num 1, .num 2])]⟩)),
   fun _ => .ok predsA,
   fun _ => .error (.other "sin predict_proba")⟩

/-- A world in which `in.csv` holds `raw`, `p.pkl` holds `p`, nothing else
exists, and writing always succeeds. -/
def mkFS (raw : DF) (p : Pipeline) : FS :=
  ⟨fun s => s == "in.csv" || s == "p.pkl",
   fun s => if s = "in.csv" then .ok raw else .error (.fileNotFound s),
   fun s => if s = "p.pkl" then .ok p else .error (.fileNotFound s),
   fun _ _ => .ok ()⟩

/-- Default invocation: `--csv in.csv --pkl p.pkl --out out.csv`. -/
def argsA : Args := ⟨"in.csv", "p.pkl", "out.csv", "ID", 10⟩

/-- Invocation with `--id-col Prediccion`. -/
def argsPred : Args := ⟨"in.csv", "p.pkl", "out.csv", "Prediccion", 10⟩

/-- Pipeline whose `predict` raises a generic exception. -/
def pipePredFail : Pipeline :=
  ⟨none, fun _ => .error (.other "fallo predict"), fun _ => .ok probaA⟩

/-- Pipeline equal to `pipeA` at the raw table but differing elsewhere. -/
def pipeA2 : Pipeline :=
  ⟨none,
   fun d => if d = rawA then .ok predsA else .error (.other "otra tabla"),
   fun d => if d = rawA then .ok probaA else .error (.other "otra tabla")⟩

/-- Pipeline whose cleaning stage drops the `ID` column. -/
def pipeDropId : Pipeline :=
  ⟨some (fun _ => .ok (.frame ⟨2, [("x", [.num 5, .num 7])]⟩)),
   fun _ => .ok predsA,
   fun _ => .error (.other "sin predict_proba")⟩

/-- Results table of the `rawA`/`pipeA` run. -/
def resA : DF :=
  ⟨2, [("ID", [.num 1, .num 2]), ("x", [.num 5, .num 7]),
       ("Prediccion", predsA),
       ("Probabilidad_No_Default", [.num 1, .num 0]),
       ("Probabilidad_Default", [.num 0, .num 1])]⟩

/-- Results table of the `rawA`/`pipeB` run (no probabilities). -/
def resB : DF :=
  ⟨2, [("ID", [.num 1, .num 2]), ("x", [.num 5, .num 7]),
       ("Prediccion", predsA)]⟩

/-- Results table of the `rawA`/`pipeDropId` run. -/
def resDropId : DF :=
  ⟨2, [("ID", [.num 1, .num 2]), ("x", [.num 5, .num 7]),
       ("Prediccion", predsA)]⟩

/-- Two-row table that already contains a column named `Probabilidad`. -/
def rawProbCol : DF :=
  ⟨2, [("Probabilidad", [.num 9, .num 8]), ("x", [.num 5, .num 7])]⟩

/-- Results table of the `rawProbCol`/`pipeB` run: the inherited
`Probabilidad` column survives even though `predict_proba` raised. -/
def resProbCol : DF :=
  ⟨2, [("Probabilidad", [.num 9, .num 8]), ("x", [.num 5, .num 7]),
       ("Prediccion", predsA)]⟩

/-- Two-row table that already contains a column named
`Probabilidad_No_Default`. -/
def rawPND : DF :=
  ⟨2, [("Probabilidad_No_Default", [.num 5, .num 6]),
       ("x", [.num 5, .num 7])]⟩

/-- Pre-probability results table of the `rawPND`/`pipeA` run (after the
identifier guard and the `Prediccion` assignment). -/
def r2PND : DF :=
  ⟨2, [("Probabilidad_No_Default", [.num 5, .num 6]),
       ("x", [.num 5, .num 7]), ("Prediccion", predsA)]⟩

/-- Results table of the `rawPND`/`pipeA` run: line 96 replaced the existing
`Probabilidad_No_Default` column in place, so only `Probabilidad_Default`
was added. -/
def resPND : DF :=
  ⟨2, [("Probabilidad_No_Default", [.num 1, .num 0]),
       ("x", [.num 5, .num 7]), ("Prediccion", predsA),
       ("Probabilidad_Default", [.num 0, .num 1])]⟩

example : (mainRun (mkFS rawA pipeA) argsA).exitCode = 0 := by decide

example : (mainRun (mkFS rawA pipeA) argsA).written
    = some ⟨2, [("ID", [.num 1, .num 2]), ("x", [.num 5, .num 7]),
                ("Prediccion", predsA),
                ("Probabilidad_No_Default", [.num 1, .num 0]),
                ("Probabilidad_Default", [.num 0, .num 1])]⟩ := by
  decide

example : (mainRun (mkFS rawNoId pipeShrink) argsA).exitCode = 0 := by decide

example : ((mainRun (mkFS rawNoId pipeShrink) argsA).written.map DF.nrows)
    = some 1 := by decide

/-! ### The claims -/

/-- C5: an invocation whose input CSV path does not exist exits with status 1
after printing only the message naming that file to the error stream, and an
invocation whose CSV exists but whose pipeline path does not behaves the same
with the pipeline message; in both cases nothing is printed to stdout, no
output table is written, and the outcome is a constant — independent of the
table reader, the pipeline loader, and the writer, so no table is read, no
pipeline is loaded, and no output is created. -/
theorem C5_fail_fast (fs : FS) (args : Args) :
    (fs.pathExists args.csv = false →
      mainRun fs args = ⟨1, [], [.missingCsv args.csv], none⟩)
    ∧ (fs.pathExists args.csv = true → fs.pathExists args.pkl = false →
      mainRun fs args = ⟨1, [], [.missingPkl args.pkl], none⟩) := by
  constructor
  · intro h
    unfold mainRun
    simp [h]
  · intro h1 h2
    unfold mainRun
    simp [h1, h2]

theorem C5_fail_fast_witness :
    mainRun (mkFS rawA pipeA) ⟨"missing.csv", "p.pkl", "out.csv", "ID", 10⟩
        = ⟨1, [], [.missingCsv "missing.csv"], none⟩
    ∧ mainRun (mkFS rawA pipeA) ⟨"in.csv", "missing.pkl", "out.csv", "ID", 10⟩
        = ⟨1, [], [.missingPkl "missing.pkl"], none⟩ :=
  ⟨(C5_fail_fast (mkFS rawA pipeA) _).1 (by decide),
   (C5_fail_fast (mkFS rawA pipeA) _).2 (by decide) (by decide)⟩

/-- C7: the outcome of a run depends on `predict` and `predict_proba` only
through their values at the Raw Table: two worlds whose pipelines share the
cleaning stage and agree at the raw input produce identical runs, however the
pipelines behave on any other table (in particular on the Cleaned Table).
Hence predictions come from invoking the pipeline on the Raw Table, and the
Cleaned Table is never passed to `predict` or `predict_proba`. -/
theorem C7_predict_on_raw (fs fs' : FS) (args : Args) (raw : DF)
    (p p' : Pipeline)
    (hE : fs'.pathExists = fs.pathExists)
    (hR : fs'.readCsv = fs.readCsv)
    (hW : fs'.write = fs.write)
    (hread : fs.readCsv args.csv = .ok raw)
    (hload : fs.loadPkl args.pkl = .ok p)
    (hload' : fs'.loadPkl args.pkl = .ok p')
    (hclean : p'.cleaning = p.cleaning)
    (hpred : p'.predict raw = p.predict raw)
    (hproba : p'.predict_proba raw = p.predict_proba raw) :
    mainRun fs' args = mainRun fs args := by
  have hg : get_cleaned_df_from_pipeline p' raw
      = get_cleaned_df_from_pipeline p raw := by
    unfold get_cleaned_df_from_pipeline
    rw [hclean]
  have hcl : cleanedOf p' raw = cleanedOf p raw := by
    unfold cleanedOf
    rw [hg]
  have hcr : ∀ td cl warns preds proba so,
      continueRun fs' args td cl warns preds proba so
        = continueRun fs args td cl warns preds proba so := by
    intro td cl warns preds proba so
    unfold continueRun
    rw [hW]
  have hrb : runBody fs' args = runBody fs args := by
    rw [runBody_eq (by rw [hR]; exact hread) hload',
        runBody_eq hread hload]
    simp only [hpred, hproba, hg, hcl]
    cases p.predict raw with
    | error e => rfl
    | ok preds =>
      cases p.predict_proba raw with
      | error e => exact hcr _ _ _ _ _ _
      | ok a => exact hcr _ _ _ _ _ _
  unfold mainRun
  rw [hE, hrb]

theorem C7_predict_on_raw_witness :
    mainRun (mkFS rawA pipeA2) argsA = mainRun (mkFS rawA pipeA) argsA :=
  C7_predict_on_raw (mkFS rawA pipeA) (mkFS rawA pipeA2) argsA rawA
    pipeA pipeA2 rfl rfl rfl (by decide) rfl rfl rfl (by decide) (by decide)

/-- C8: exceptions escaping the main processing block map to exit status by
class — a file-not-found error gives exit 1 with its message printed to the
error stream, any other error gives exit 2 with its message printed to the
error stream, and an error-free body gives exit 0; in particular a `predict`
failure with a generic error exits with status 2. -/
theorem C8_exit_codes (fs : FS) (args : Args)
    (hcsv : fs.pathExists args.csv = true)
    (hpkl : fs.pathExists args.pkl = true) :
    (∀ st, runBody fs args = (st, none) → (mainRun fs args).exitCode = 0)
    ∧ (∀ st m, runBody fs args = (st, some (.fileNotFound m)) →
        (mainRun fs args).exitCode = 1
          ∧ Msg.archivoNoEncontrado m ∈ (mainRun fs args).stderr)
    ∧ (∀ st m, runBody fs args = (st, some (.other m)) →
        (mainRun fs args).exitCode = 2
          ∧ Msg.errorProcesar m ∈ (mainRun fs args).stderr)
    ∧ (∀ raw p m, fs.readCsv args.csv = .ok raw →
        fs.loadPkl args.pkl = .ok p →
        p.predict raw = .error (.other m) →
        (mainRun fs args).exitCode = 2
          ∧ Msg.errorProcesar m ∈ (mainRun fs args).stderr) := by
  refine ⟨?_, ?_, ?_, ?_⟩
  · intro st h
    rw [mainRun_of_runBody hcsv hpkl h]
  · intro st m h
    rw [mainRun_of_runBody hcsv hpkl h]
    exact ⟨rfl, by simp⟩
  · intro st m h
    rw [mainRun_of_runBody hcsv hpkl h]
    exact ⟨rfl, by simp⟩
  · intro raw p m hread hload hpred
    have hrb : runBody fs args =
        (⟨soPrefix args raw (cleanedOf p raw),
          (get_cleaned_df_from_pipeline p raw).2, none⟩,
         some (.other m)) := by
      rw [runBody_eq hread hload]
      simp only [hpred]
    rw [mainRun_of_runBody hcsv hpkl hrb]
    exact ⟨rfl, by simp⟩

theorem C8_exit_codes_witness :
    ((mainRun (mkFS rawA pipeA) ⟨"p.pkl", "p.pkl", "out.csv", "ID", 10⟩).exitCode = 1
      ∧ Msg.archivoNoEncontrado "p.pkl"
          ∈ (mainRun (mkFS rawA pipeA) ⟨"p.pkl", "p.pkl", "out.csv", "ID", 10⟩).stderr)
    ∧ ((mainRun (mkFS rawA pipePredFail) argsA).exitCode = 2
      ∧ Msg.errorProcesar "fallo predict"
          ∈ (mainRun (mkFS rawA pipePredFail) argsA).stderr) :=
  ⟨(C8_exit_codes (mkFS rawA pipeA) ⟨"p.pkl", "p.pkl", "out.csv", "ID", 10⟩
      (by decide) (by decide)).2.1 ⟨[], [], none⟩ "p.pkl" (by decide),
   (C8_exit_codes (mkFS rawA pipePredFail) argsA (by decide) (by decide)).2.2.2
      rawA pipePredFail "fallo predict" (by decide) rfl rfl⟩

/-- C10: the preview fallback that would print all columns is unreachable —
no run ever emits it, because whenever the preview is reached the results
table has the `Prediccion` column, making the preferred preview column list
nonempty; a run that reaches the preview prints the selected-columns preview
whose column list contains `Prediccion`. -/
theorem C10_preview_fallback_unreachable (fs : FS) (args : Args) :
    Msg.previewAll ∉ (mainRun fs args).stdout
    ∧ (∀ raw p preds res,
        fs.pathExists args.csv = true → fs.pathExists args.pkl = true →
        fs.readCsv args.csv = .ok raw → fs.loadPkl args.pkl = .ok p →
        p.predict raw = .ok preds →
        buildResults args.id_col raw (cleanedOf p raw) preds
          (probaOpt p raw) = .ok res →
        fs.write args.out res = .ok () →
        Msg.previewSel (previewCols args.id_col res (probaOpt p raw))
            ∈ (mainRun fs args).stdout
          ∧ "Prediccion" ∈ previewCols args.id_col res (probaOpt p raw)) := by
  constructor
  · intro h
    exact ((mainRun_console fs args).1 _ h).2 rfl
  · intro raw p preds res hcsv hpkl hread hload hpred hbuild hwrite
    have hmemP : "Prediccion" ∈ res.columns := buildResults_mem_Prediccion hbuild
    have hpm := @previewMsg_sel args.id_col res (probaOpt p raw) hmemP
    refine ⟨?_, hpm.2⟩
    cases hq : p.predict_proba raw with
    | ok a =>
      have hpo : probaOpt p raw = some a := by
        unfold probaOpt
        rw [hq]
      rw [hpo] at hbuild
      rw [hpo] at hpm
      rw [hpo, mainRun_ok_proba hcsv hpkl hread hload hpred hq hbuild hwrite]
      rw [← hpm.1]
      simp
    | error e =>
      have hpo : probaOpt p raw = none := by
        unfold probaOpt
        rw [hq]
      rw [hpo] at hbuild
      rw [hpo] at hpm
      rw [hpo, mainRun_ok_noproba hcsv hpkl hread hload hpred hq hbuild hwrite]
      rw [← hpm.1]
      simp

theorem C10_preview_witness :
    Msg.previewAll ∉ (mainRun (mkFS rawA pipeA) argsA).stdout
    ∧ Msg.previewSel ["ID", "Prediccion", "Probabilidad_Default"]
        ∈ (mainRun (mkFS rawA pipeA) argsA).stdout
    ∧ "Prediccion" ∈ previewCols "ID" resA (some probaA) := by
  have h := C10_preview_fallback_unreachable (mkFS rawA pipeA) argsA
  have h2 := h.2 rawA pipeA predsA resA (by decide) (by decide) (by decide)
    rfl rfl (by decide) rfl
  refine ⟨h.1, ?_, ?_⟩
  · have hpc : previewCols argsA.id_col resA (probaOpt pipeA rawA)
        = ["ID", "Prediccion", "Probabilidad_Default"] := by decide
    rw [← hpc]
    exact h2.1
  · have hpc : previewCols argsA.id_col resA (probaOpt pipeA rawA)
        = previewCols "ID" resA (some probaA) := by decide
    rw [← hpc]
    exact h2.2

theorem addProba_filter {r res : DF} {pr : Option NDArray}
    (h : addProba r pr = .ok res) :
    res.cols.filter (fun c => !(specialNames.contains c.1))
      = r.cols.filter (fun c => !(specialNames.contains c.1)) := by
  cases pr with
  | none =>
    have he : r = res := by injection h
    rw [he]
  | some a =>
    by_cases hw : a.ndim = 2 ∧ 2 ≤ a.shape1
    · rcases addProba_some_wide hw h with ⟨rm, h1, h2⟩
      rw [DF.setCol_filter h2 _ (by intro c hc; rw [hc]; rfl),
          DF.setCol_filter h1 _ (by intro c hc; rw [hc]; rfl)]
    · rw [DF.setCol_filter (addProba_some_narrow hw h) _
        (by intro c hc; rw [hc]; rfl)]

/-- C3: deriving the Cleaned Table never propagates an error.  With no
`cleaning` stage the result is the unmodified Raw Table with no warning; when
the stage (or the tabular coercion of its result) fails with any error, the
result is again the unmodified Raw Table plus exactly one non-fatal stderr
warning carrying the error's description, and in a full run that warning
reaches the process error stream; finally, in the no-cleaning-stage case a
successfully assembled Results Table agrees with the Raw Table value-for-value
on every column not named like a generated (prediction/probability) column. -/
theorem C3_cleaning_fallback (p : Pipeline) (raw : DF) :
    (p.cleaning = none → get_cleaned_df_from_pipeline p raw = (raw, []))
    ∧ (∀ tf e, p.cleaning = some tf →
        (tf raw).bind (coerceClean raw) = .error e →
        get_cleaned_df_from_pipeline p raw = (raw, [.avisoLimpio e.msg]))
    ∧ (∀ fs args tf e, fs.pathExists args.csv = true →
        fs.pathExists args.pkl = true →
        fs.readCsv args.csv = .ok raw → fs.loadPkl args.pkl = .ok p →
        p.cleaning = some tf → (tf raw).bind (coerceClean raw) = .error e →
        Msg.avisoLimpio e.msg ∈ (mainRun fs args).stderr)
    ∧ (∀ id_col preds proba res, p.cleaning = none →
        buildResults id_col raw (cleanedOf p raw) preds proba = .ok res →
        res.cols.filter (fun c => !(specialNames.contains c.1))
          = raw.cols.filter (fun c => !(specialNames.contains c.1))) := by
  refine ⟨fun h => get_cleaned_none h, ?_, ?_, ?_⟩
  · intro tf e hc he
    exact get_cleaned_error hc he
  · intro fs args tf e hcsv hpkl hread hload hc he
    apply mainRun_stderr_mem hcsv hpkl
    rw [runBody_stderr_eq hread hload, get_cleaned_error hc he]
    exact List.mem_singleton.mpr rfl
  · intro id_col preds proba res hc hb
    have hcl : cleanedOf p raw = raw := by
      unfold cleanedOf
      rw [get_cleaned_none hc]
    rw [hcl] at hb
    rcases buildResults_ok hb with ⟨r1, r2, h1, h2, h3⟩
    have hr1 : r1 = raw := by
      rw [insertId_self] at h1
      injection h1 with h1
      exact h1.symm
    subst hr1
    rw [addProba_filter h3,
        DF.setCol_filter h2 _ (by intro c hc2; rw [hc2]; rfl)]

theorem C3_cleaning_fallback_witness :
    get_cleaned_df_from_pipeline pipeA rawA = (rawA, [])
    ∧ get_cleaned_df_from_pipeline pipeC rawA
        = (rawA, [.avisoLimpio "boom"])
    ∧ Msg.avisoLimpio "boom" ∈ (mainRun (mkFS rawA pipeC) argsA).stderr
    ∧ resA.cols.filter (fun c => !(specialNames.contains c.1))
        = rawA.cols.filter (fun c => !(specialNames.contains c.1)) := by
  have h := C3_cleaning_fallback pipeA rawA
  have hC := C3_cleaning_fallback pipeC rawA
  refine ⟨h.1 rfl, ?_, ?_, ?_⟩
  · exact hC.2.1 (fun _ => .error (.other "boom")) (.other "boom") rfl rfl
  · exact hC.2.2.1 (mkFS rawA pipeC) argsA
      (fun _ => .error (.other "boom")) (.other "boom")
      (by decide) (by decide) (by decide) rfl rfl rfl
  · exact h.2.2.2 "ID" predsA (some probaA) resA rfl (by decide)

/-- C4 (amended): when `predict_proba` is unsupported or raises while every
other step succeeds, the run exits with status 0, the output table is
written, and — provided the cleaned table itself carries no column with a
probability name and the identifier column is not named like one (the
counterexample shows such a column is otherwise inherited unchanged through
`results = cleaned_test_data.copy()`) — it contains none of the probability
columns. -/
theorem C4_no_proba_degrades (fs : FS) (args : Args) (raw : DF) (p : Pipeline)
    (preds : List Val) (res : DF) (e : Err)
    (hcsv : fs.pathExists args.csv = true)
    (hpkl : fs.pathExists args.pkl = true)
    (hread : fs.readCsv args.csv = .ok raw)
    (hload : fs.loadPkl args.pkl = .ok p)
    (hpred : p.predict raw = .ok preds)
    (hq : p.predict_proba raw = .error e)
    (hbuild : buildResults args.id_col raw (cleanedOf p raw) preds none
      = .ok res)
    (hwrite : fs.write args.out res = .ok ())
    (hn : ∀ n ∈ probNames, n ∉ (cleanedOf p raw).columns)
    (hid : args.id_col ∉ probNames) :
    (mainRun fs args).exitCode = 0
    ∧ (mainRun fs args).written = some res
    ∧ ∀ n ∈ probNames, n ∉ res.columns := by
  rw [mainRun_ok_noproba hcsv hpkl hread hload hpred hq hbuild hwrite]
  refine ⟨rfl, rfl, ?_⟩
  rcases buildResults_ok hbuild with ⟨r1, r2, h1, h2, h3⟩
  have hres : r2 = res := by
    rw [addProba_none] at h3
    injection h3
  intro n hnp hmem
  rw [← hres] at hmem
  have hnpred : n ≠ "Prediccion" := by
    intro he
    rw [he] at hnp
    exact absurd hnp (by decide)
  exact buildResults_pre_not_mem h1 h2 (hn n hnp)
    (fun he => hid (he ▸ hnp)) hnpred hmem

theorem C4_no_proba_degrades_witness :
    (mainRun (mkFS rawA pipeB) argsA).exitCode = 0
    ∧ (mainRun (mkFS rawA pipeB) argsA).written = some resB
    ∧ ∀ n ∈ probNames, n ∉ resB.columns := by
  exact C4_no_proba_degrades (mkFS rawA pipeB) argsA rawA pipeB predsA resB
    (.other "sin predict_proba") (by decide) (by decide) (by decide) rfl rfl
    rfl (by decide) rfl (by decide) (by decide)

/-- C4 counterexample: `predict_proba` raises and every other step succeeds,
but the Raw Table already carries a column named `Probabilidad`: the run
exits 0 and the written Results Table does contain a `Probabilidad` column,
inherited through `results = cleaned_test_data.copy()` (line 85) — refuting
"the Results Table contains no ... Probabilidad column" as the frozen claim
states it. -/
theorem C4_no_proba_degrades_cex :
    (mainRun (mkFS rawProbCol pipeB) argsA).exitCode = 0
    ∧ pipeB.predict_proba rawProbCol = .error (.other "sin predict_proba")
    ∧ (mainRun (mkFS rawProbCol pipeB) argsA).written = some resProbCol
    ∧ "Probabilidad" ∈ resProbCol.columns := by
  decide

/-- C2 (amended): probability-shape dispatch, for runs whose Cleaned Table
carries no column with a generated probability name and whose identifier name
is not one (the counterexample shows a pre-existing probability-named column
is replaced in place, so fewer columns are gained).  In a successful such run
where `predict_proba` returns `a`: if `a` is 2-D with at least two columns,
the Results Table extends the pre-probability table `r2` with exactly the two
columns `Probabilidad_No_Default` = column 0 of `a` and `Probabilidad_Default`
= column 1 of `a` (columns beyond the first two are not added, and no
`Probabilidad` column appears); otherwise it extends `r2` with exactly the one
column `Probabilidad` holding the flattened values. -/
theorem C2_proba_dispatch (fs : FS) (args : Args) (raw : DF) (p : Pipeline)
    (preds : List Val) (a : NDArray) (res : DF)
    (hcsv : fs.pathExists args.csv = true)
    (hpkl : fs.pathExists args.pkl = true)
    (hread : fs.readCsv args.csv = .ok raw)
    (hload : fs.loadPkl args.pkl = .ok p)
    (hpred : p.predict raw = .ok preds)
    (hq : p.predict_proba raw = .ok a)
    (hbuild : buildResults args.id_col raw (cleanedOf p raw) preds (some a)
      = .ok res)
    (hwrite : fs.write args.out res = .ok ())
    (hn : ∀ n ∈ probNames, n ∉ (cleanedOf p raw).columns)
    (hid : args.id_col ∉ probNames) :
    (mainRun fs args).exitCode = 0
    ∧ (mainRun fs args).written = some res
    ∧ ∃ r1 r2, insertId args.id_col raw (cleanedOf p raw) = .ok r1
      ∧ r1.setCol "Prediccion" preds = .ok r2
      ∧ (a.ndim = 2 ∧ 2 ≤ a.shape1 →
          res.getCol "Probabilidad_No_Default" = some (a.col 0)
          ∧ res.getCol "Probabilidad_Default" = some (a.col 1)
          ∧ "Probabilidad" ∉ res.columns
          ∧ res.columns = r2.columns
              ++ ["Probabilidad_No_Default", "Probabilidad_Default"])
      ∧ (¬(a.ndim = 2 ∧ 2 ≤ a.shape1) →
          res.getCol "Probabilidad" = some a.ravel
          ∧ "Probabilidad_No_Default" ∉ res.columns
          ∧ "Probabilidad_Default" ∉ res.columns
          ∧ res.columns = r2.columns ++ ["Probabilidad"]) := by
  rw [mainRun_ok_proba hcsv hpkl hread hload hpred hq hbuild hwrite]
  refine ⟨rfl, rfl, ?_⟩
  rcases buildResults_ok hbuild with ⟨r1, r2, h1, h2, h3⟩
  have hnm : ∀ n ∈ probNames, n ∉ r2.columns := by
    intro n hnp
    refine buildResults_pre_not_mem h1 h2 (hn n hnp)
      (fun he => hid (he ▸ hnp)) ?_
    intro he
    rw [he] at hnp
    exact absurd hnp (by decide)
  refine ⟨r1, r2, h1, h2, ?_, ?_⟩
  · intro hw
    rcases addProba_some_wide hw h3 with ⟨rm, hA, hB⟩
    have hcA := addProba_wide_cols hw h3
    have hrmcols : rm.columns = r2.columns ++ ["Probabilidad_No_Default"] :=
      DF.setCol_columns_append hA (hnm _ (by decide))
    have hmB : "Probabilidad_Default" ∉ rm.columns := by
      intro hmem
      rcases (DF.setCol_mem_columns hA).mp hmem with h | h
      · exact hnm _ (by decide) h
      · exact absurd h (by decide)
    refine ⟨hcA.1, hcA.2, ?_, ?_⟩
    · intro hmem
      rcases (DF.setCol_mem_columns hB).mp hmem with h | h
      · rcases (DF.setCol_mem_columns hA).mp h with h | h
        · exact hnm _ (by decide) h
        · exact absurd h (by decide)
      · exact absurd h (by decide)
    · rw [DF.setCol_columns_append hB hmB, hrmcols, List.append_assoc]
      rfl
  · intro hw
    have h3' := addProba_some_narrow hw h3
    refine ⟨addProba_narrow_col hw h3, ?_, ?_,
      DF.setCol_columns_append h3' (hnm _ (by decide))⟩
    · intro hmem
      rcases (DF.setCol_mem_columns h3').mp hmem with h | h
      · exact hnm _ (by decide) h
      · exact absurd h (by decide)
    · intro hmem
      rcases (DF.setCol_mem_columns h3').mp hmem with h | h
      · exact hnm _ (by decide) h
      · exact absurd h (by decide)

theorem C2_proba_dispatch_witness :
    (mainRun (mkFS rawA pipeA) argsA).exitCode = 0
    ∧ (mainRun (mkFS rawA pipeA) argsA).written = some resA
    ∧ resA.getCol "Probabilidad_No_Default" = some (probaA.col 0)
    ∧ resA.getCol "Probabilidad_Default" = some (probaA.col 1)
    ∧ "Probabilidad" ∉ resA.columns := by
  have h := C2_proba_dispatch (mkFS rawA pipeA) argsA rawA pipeA predsA
    probaA resA (by decide) (by decide) (by decide) rfl rfl rfl (by decide)
    rfl (by decide) (by decide)
  rcases h.2.2 with ⟨r1, r2, h1, h2, hw, _⟩
  have hww := hw (by decide)
  exact ⟨h.1, h.2.1, hww.1, hww.2.1, hww.2.2.1⟩

/-- C2 counterexample: a successful run whose Raw Table (hence Cleaned Table)
already carries a column named `Probabilidad_No_Default`, with a 2-D
two-column probability matrix.  Line 96 replaces the existing column in
place, so the Results Table gains exactly one new probability column
(`Probabilidad_Default`), not two — refuting "the Results Table gains exactly
two probability columns" as the frozen claim states it. -/
theorem C2_proba_dispatch_cex :
    (mainRun (mkFS rawPND pipeA) argsA).exitCode = 0
    ∧ pipeA.predict_proba rawPND = .ok probaA
    ∧ probaA.ndim = 2 ∧ 2 ≤ probaA.shape1
    ∧ (mainRun (mkFS rawPND pipeA) argsA).written = some resPND
    ∧ insertId argsA.id_col rawPND (cleanedOf pipeA rawPND)
        = .ok (cleanedOf pipeA rawPND)
    ∧ (cleanedOf pipeA rawPND).setCol "Prediccion" predsA = .ok r2PND
    ∧ addProba r2PND (some probaA) = .ok resPND
    ∧ resPND.ncols = r2PND.ncols + 1
    ∧ resPND.columns
        ≠ r2PND.columns
            ++ ["Probabilidad_No_Default", "Probabilidad_Default"] := by
  decide

/-- C1 counterexample: a run that completes successfully (exit 0) on a 2-row
Raw Table yet writes a 1-row Results Table, because the cleaning stage
returned a 1-row frame and `predict` one label — so "the Results Table has
exactly R rows" fails for a successful run as the claim stands. -/
theorem C1_row_alignment_cex :
    (mainRun (mkFS rawNoId pipeShrink) argsA).exitCode = 0
    ∧ (mkFS rawNoId pipeShrink).readCsv argsA.csv = .ok rawNoId
    ∧ rawNoId.nrows = 2
    ∧ ((mainRun (mkFS rawNoId pipeShrink) argsA).written.map DF.nrows)
        = some 1 := by
  decide

/-- C1 (amended): in a successful run whose Cleaned Table has as many rows as
the Raw Table (the collaborator contract the counterexample shows is needed)
and whose identifier name is not a generated column name, the Results Table
has exactly R rows, its `Prediccion` column is the Prediction Sequence, its
identifier column (when inserted) is the Raw Table's identifier column, and
its probability columns are the columns (or flattening) of the Probability
Matrix — all aligned by row position. -/
theorem C1_row_alignment (fs : FS) (args : Args) (raw : DF) (p : Pipeline)
    (preds : List Val) (res : DF)
    (hcsv : fs.pathExists args.csv = true)
    (hpkl : fs.pathExists args.pkl = true)
    (hread : fs.readCsv args.csv = .ok raw)
    (hload : fs.loadPkl args.pkl = .ok p)
    (hpred : p.predict raw = .ok preds)
    (hbuild : buildResults args.id_col raw (cleanedOf p raw) preds
      (probaOpt p raw) = .ok res)
    (hwrite : fs.write args.out res = .ok ())
    (hclean : (cleanedOf p raw).nrows = raw.nrows)
    (hid : args.id_col ∉ specialNames) :
    (mainRun fs args).exitCode = 0
    ∧ (mainRun fs args).written = some res
    ∧ res.nrows = raw.nrows
    ∧ res.getCol "Prediccion" = some preds
    ∧ (args.id_col ∈ raw.columns → args.id_col ∉ (cleanedOf p raw).columns →
        res.getCol args.id_col = raw.getCol args.id_col)
    ∧ (∀ a, p.predict_proba raw = .ok a →
        (a.ndim = 2 ∧ 2 ≤ a.shape1 →
          res.getCol "Probabilidad_No_Default" = some (a.col 0)
          ∧ res.getCol "Probabilidad_Default" = some (a.col 1))
        ∧ (¬(a.ndim = 2 ∧ 2 ≤ a.shape1) →
          res.getCol "Probabilidad" = some a.ravel)) := by
  have hidP : args.id_col ≠ "Prediccion" := by
    intro he
    exact hid (by rw [he]; decide)
  have hidprob : args.id_col ∉ probNames :=
    fun h => hid (List.mem_cons_of_mem _ h)
  have hmain : (mainRun fs args).exitCode = 0
      ∧ (mainRun fs args).written = some res := by
    cases hq : p.predict_proba raw with
    | ok a =>
      have hpo : probaOpt p raw = some a := by
        unfold probaOpt
        rw [hq]
      rw [hpo] at hbuild
      rw [mainRun_ok_proba hcsv hpkl hread hload hpred hq hbuild hwrite]
      exact ⟨rfl, rfl⟩
    | error e =>
      have hpo : probaOpt p raw = none := by
        unfold probaOpt
        rw [hq]
      rw [hpo] at hbuild
      rw [mainRun_ok_noproba hcsv hpkl hread hload hpred hq hbuild hwrite]
      exact ⟨rfl, rfl⟩
  rcases buildResults_ok hbuild with ⟨r1, r2, h1, h2, h3⟩
  have hn1 : r1.nrows = (cleanedOf p raw).nrows := by
    rcases insertId_ok h1 with ⟨_, _, he, _⟩ | ⟨_, he⟩
    · rw [he]
    · rw [he]
  refine ⟨hmain.1, hmain.2, ?_, ?_, ?_, ?_⟩
  · rw [addProba_nrows h3, DF.setCol_nrows h2, hn1, hclean]
  · rw [addProba_getCol_ne h3 (by decide), DF.setCol_getCol_self h2]
  · intro hin hnotcl
    rcases insertId_ok h1 with ⟨_, _, he, _⟩ | ⟨hcond, _⟩
    · have hg1 : r1.getCol args.id_col = some (raw.getColD args.id_col) := by
        rw [he]
        show (List.find? (fun c => c.1 == args.id_col)
          ((args.id_col, raw.getColD args.id_col)
            :: (cleanedOf p raw).cols)).map Prod.snd = _
        rw [List.find?_cons_of_pos _ (by simp)]
        rfl
      rw [addProba_getCol_ne h3 hidprob,
          DF.setCol_getCol_ne h2 hidP, hg1,
          DF.getCol_eq_some_getColD hin]
    · exact absurd ⟨hin, hnotcl⟩ hcond
  · intro a hq
    have hpo : probaOpt p raw = some a := by
      unfold probaOpt
      rw [hq]
    rw [hpo] at h3
    exact ⟨fun hw => addProba_wide_cols hw h3,
           fun hw => addProba_narrow_col hw h3⟩

theorem C1_row_alignment_witness :
    (mainRun (mkFS rawA pipeA) argsA).exitCode = 0
    ∧ (mainRun (mkFS rawA pipeA) argsA).written = some resA
    ∧ resA.nrows = rawA.nrows
    ∧ resA.getCol "Prediccion" = some predsA := by
  have h := C1_row_alignment (mkFS rawA pipeA) argsA rawA pipeA predsA resA
    (by decide) (by decide) (by decide) rfl rfl (by decide) rfl (by decide)
    (by decide)
  exact ⟨h.1, h.2.1, h.2.2.1, h.2.2.2.1⟩

/-- Results table of the `rawNoId`/`pipeShrink` run. -/
def resShrink : DF := ⟨1, [("x", [.num 9]), ("Prediccion", [.num 0])]⟩

/-- C6 counterexample: with `--id-col Prediccion`, a Raw Table containing a
`Prediccion` column, and a cleaning stage that drops it, the identifier
column is inserted at the front and then overwritten by the predictions:
the run succeeds, the first results column is named `Prediccion` but holds
the predictions `[0, 1]`, not the Raw Table's identifier values `[5, 7]` —
refuting "it appears as the first column with values identical to the Raw
Table's column". -/
theorem C6_identifier_cex :
    (mainRun (mkFS rawPred pipeDrop) argsPred).exitCode = 0
    ∧ argsPred.id_col ∈ rawPred.columns
    ∧ argsPred.id_col ∉ (cleanedOf pipeDrop rawPred).columns
    ∧ rawPred.getCol "Prediccion" = some [.num 5, .num 7]
    ∧ ((mainRun (mkFS rawPred pipeDrop) argsPred).written.map
        (fun d => d.cols.head?)) = some (some ("Prediccion", predsA))
    ∧ predsA ≠ [.num 5, .num 7] := by
  decide

/-- C6 (amended): in a successful run whose identifier name is not a
generated column name (the counterexample shows `--id-col Prediccion` breaks
the claim), if the identifier column exists in the Raw Table and not in the
Cleaned Table it is the first column of the written Results Table with the
Raw Table's values in order; and if it is absent from the Raw Table (and from
the Cleaned Table) no identifier column is present in the Results Table. -/
theorem C6_identifier (fs : FS) (args : Args) (raw : DF) (p : Pipeline)
    (preds : List Val) (res : DF)
    (hcsv : fs.pathExists args.csv = true)
    (hpkl : fs.pathExists args.pkl = true)
    (hread : fs.readCsv args.csv = .ok raw)
    (hload : fs.loadPkl args.pkl = .ok p)
    (hpred : p.predict raw = .ok preds)
    (hbuild : buildResults args.id_col raw (cleanedOf p raw) preds
      (probaOpt p raw) = .ok res)
    (hwrite : fs.write args.out res = .ok ())
    (hid : args.id_col ∉ specialNames) :
    (mainRun fs args).written = some res
    ∧ (args.id_col ∈ raw.columns → args.id_col ∉ (cleanedOf p raw).columns →
        res.cols.head? = some (args.id_col, raw.getColD args.id_col)
        ∧ res.getCol args.id_col = raw.getCol args.id_col)
    ∧ (args.id_col ∉ raw.columns → args.id_col ∉ (cleanedOf p raw).columns →
        args.id_col ∉ res.columns) := by
  have hidP : args.id_col ≠ "Prediccion" := by
    intro he
    exact hid (by rw [he]; decide)
  have hidprob : args.id_col ∉ probNames :=
    fun h => hid (List.mem_cons_of_mem _ h)
  have hmain : (mainRun fs args).written = some res := by
    cases hq : p.predict_proba raw with
    | ok a =>
      have hpo : probaOpt p raw = some a := by
        unfold probaOpt
        rw [hq]
      rw [hpo] at hbuild
      rw [mainRun_ok_proba hcsv hpkl hread hload hpred hq hbuild hwrite]
    | error e =>
      have hpo : probaOpt p raw = none := by
        unfold probaOpt
        rw [hq]
      rw [hpo] at hbuild
      rw [mainRun_ok_noproba hcsv hpkl hread hload hpred hq hbuild hwrite]
  rcases buildResults_ok hbuild with ⟨r1, r2, h1, h2, h3⟩
  refine ⟨hmain, ?_, ?_⟩
  · intro hin hnotcl
    rcases insertId_ok h1 with ⟨_, _, he, _⟩ | ⟨hcond, _⟩
    · have hh1 : r1.cols.head?
          = some (args.id_col, raw.getColD args.id_col) := by
        rw [he]
        rfl
      have hh2 := DF.setCol_head? h2 hh1 hidP
      refine ⟨addProba_head? h3 hh2 hidprob, ?_⟩
      have hg1 : r1.getCol args.id_col = some (raw.getColD args.id_col) := by
        rw [he]
        show (List.find? (fun c => c.1 == args.id_col)
          ((args.id_col, raw.getColD args.id_col)
            :: (cleanedOf p raw).cols)).map Prod.snd = _
        rw [List.find?_cons_of_pos _ (by simp)]
        rfl
      rw [addProba_getCol_ne h3 hidprob,
          DF.setCol_getCol_ne h2 hidP, hg1,
          DF.getCol_eq_some_getColD hin]
    · exact absurd ⟨hin, hnotcl⟩ hcond
  · intro hnotraw hnotcl hmem
    rcases insertId_ok h1 with ⟨hin, _, _, _⟩ | ⟨_, he⟩
    · exact hnotraw hin
    · rcases addProba_mem_columns_inv h3 hmem with h | h
      · rcases (DF.setCol_mem_columns h2).mp h with h | h
        · rw [he] at h
          exact hnotcl h
        · exact hidP h
      · exact hidprob h

theorem C6_identifier_witness :
    ((mainRun (mkFS rawA pipeDropId) argsA).written = some resDropId
      ∧ resDropId.cols.head? = some ("ID", rawA.getColD "ID")
      ∧ resDropId.getCol "ID" = rawA.getCol "ID")
    ∧ ((mainRun (mkFS rawNoId pipeShrink) argsA).written = some resShrink
      ∧ "ID" ∉ resShrink.columns) := by
  have hA := C6_identifier (mkFS rawA pipeDropId) argsA rawA pipeDropId
    predsA resDropId (by decide) (by decide) (by decide) rfl rfl (by decide)
    rfl (by decide)
  have hB := C6_identifier (mkFS rawNoId pipeShrink) argsA rawNoId pipeShrink
    [.num 0] resShrink (by decide) (by decide) (by decide) rfl rfl (by decide)
    rfl (by decide)
  have hA2 := hA.2.1 (by decide) (by decide)
  have hB2 := hB.2.2 (by decide) (by decide)
  exact ⟨⟨hA.1, hA2.1, hA2.2⟩, hB.1, hB2⟩

/-- C9 counterexample: the `predict_proba` failure notice is printed to
standard output (line 82 has no `file=sys.stderr`), not to the error stream —
refuting the claim that every warning goes to the error stream. -/
theorem C9_streams_cex :
    Msg.avisoProba ∈ (mainRun (mkFS rawA pipeB) argsA).stdout
    ∧ Msg.avisoProba ∉ (mainRun (mkFS rawA pipeB) argsA).stderr := by
  decide

/-- C9 (amended): every line on the error stream is one of the error/warning
messages the script routes there (the missing-file messages, the
cleaning-fallback warning, the fatal-error messages), and every line on
standard output is a progress line — except that the notice emitted when
`predict_proba` is unsupported or raises is written to standard output, not
to the error stream, as the counterexample forces. -/
theorem C9_streams (fs : FS) (args : Args) :
    (∀ m ∈ (mainRun fs args).stderr, m.isError = true)
    ∧ (∀ m ∈ (mainRun fs args).stdout, m.isError = false)
    ∧ (∀ raw p preds e,
        fs.pathExists args.csv = true → fs.pathExists args.pkl = true →
        fs.readCsv args.csv = .ok raw → fs.loadPkl args.pkl = .ok p →
        p.predict raw = .ok preds → p.predict_proba raw = .error e →
        Msg.avisoProba ∈ (mainRun fs args).stdout
          ∧ Msg.avisoProba ∉ (mainRun fs args).stderr) := by
  refine ⟨(mainRun_console fs args).2,
    fun m hm => ((mainRun_console fs args).1 m hm).1, ?_⟩
  intro raw p preds e hcsv hpkl hread hload hpred hq
  constructor
  · rw [mainRun_stdout_eq hcsv hpkl, runBody_eq hread hload]
    simp only [hpred, hq]
    apply continueRun_stdout_mem
    simp
  · intro hmem
    have h := (mainRun_console fs args).2 _ hmem
    exact absurd h (by decide)

theorem C9_streams_witness :
    (∀ m ∈ (mainRun (mkFS rawA pipeC) argsA).stderr, m.isError = true)
    ∧ Msg.avisoProba ∈ (mainRun (mkFS rawA pipeB) argsA).stdout
    ∧ Msg.avisoProba ∉ (mainRun (mkFS rawA pipeB) argsA).stderr := by
  have h := (C9_streams (mkFS rawA pipeB) argsA).2.2 rawA pipeB predsA
    (.other "sin predict_proba") (by decide) (by decide) (by decide) rfl rfl
    rfl
  exact ⟨(C9_streams (mkFS rawA pipeC) argsA).1, h.1, h.2⟩

end InferPipeline
